import Mathlib

/-!
Shallow embedding of the libheif ffmpeg HEVC decoder plugin
(src/libheif/plugins/decoder_ffmpeg.cc) and of the C++ convenience wrapper
(src/libheif/heif_cxx.h), together with theorems checking the frozen claims
about them.

Machine integers are modelled as Nat; the byte buffers handed to push_data
are uint8_t buffers in the source, so every byte access reduces the stored
value mod 256.  Heap pointers are modelled by the byte lists they point to.
The libavcodec backend (an external library) is modelled as an abstract
function from the assembled Annex-B bitstream to either an error or one
decoded frame.
-/

/-- Error codes of struct heif_error (from libheif/heif.h, as used by the two
source files).  Codes not used by the sources are collapsed into one
constructor carrying the raw enum value. -/
inductive heif_error_code where
  | heif_error_Ok
  | heif_error_Decoder_plugin_error
  | heif_error_Memory_allocation_error
  | heif_error_Unsupported_feature
  | heif_error_other (code : Nat)
deriving DecidableEq

/-- Suberror codes of struct heif_error (from libheif/heif.h, as used by the
two source files). -/
inductive heif_suberror_code where
  | heif_suberror_Unspecified
  | heif_suberror_End_of_data
  | heif_suberror_Invalid_image_size
  | heif_suberror_Unsupported_color_conversion
  | heif_suberror_other (code : Nat)
deriving DecidableEq

/-- struct heif_error: code, subcode and a message string. -/
structure heif_error where
  code : heif_error_code
  subcode : heif_suberror_code
  message : String
deriving DecidableEq

/-- kEmptyString of decoder_ffmpeg.cc. -/
def kEmptyString : String := ""

/-- heif_error_success (code Ok, subcode Unspecified, message "Success"). -/
def heif_error_success : heif_error :=
  { code := .heif_error_Ok, subcode := .heif_suberror_Unspecified, message := "Success" }

/-- enum heif_compression_format (from libheif/heif.h). -/
inductive heif_compression_format where
  | heif_compression_undefined
  | heif_compression_HEVC
  | heif_compression_AVC
  | heif_compression_JPEG
  | heif_compression_AV1
  | heif_compression_VVC
  | heif_compression_EVC
  | heif_compression_JPEG2000
  | heif_compression_uncompressed
  | heif_compression_mask
  | heif_compression_HTJ2K
deriving DecidableEq

/-- enum heif_colorspace (the values used by the sources). -/
inductive heif_colorspace where
  | heif_colorspace_YCbCr
  | heif_colorspace_RGB
  | heif_colorspace_monochrome
  | heif_colorspace_undefined
deriving DecidableEq

/-- enum heif_chroma (the values used by the sources). -/
inductive heif_chroma where
  | heif_chroma_420
  | heif_chroma_422
  | heif_chroma_444
  | heif_chroma_monochrome
  | heif_chroma_undefined
deriving DecidableEq

/-- enum heif_channel (the values used by the sources). -/
inductive heif_channel where
  | heif_channel_Y
  | heif_channel_Cb
  | heif_channel_Cr
  | heif_channel_R
  | heif_channel_G
  | heif_channel_B
  | heif_channel_Alpha
  | heif_channel_interleaved
deriving DecidableEq

/-- One pixel plane of a heif_image: channel tag, dimensions and bit depth
(spec section 4.3 / 3 "Image (pixel buffer)"). -/
structure heif_plane where
  channel : heif_channel
  width : Nat
  height : Nat
  bit_depth : Nat
deriving DecidableEq

/-- A heif_image: declared size, color space, chroma layout, and its planes
(spec section 4.3 / 3 "Image (pixel buffer)"). -/
structure heif_image where
  width : Nat
  height : Nat
  colorspace : heif_colorspace
  chroma : heif_chroma
  planes : List heif_plane
deriving DecidableEq

/-- Modelled from the spec: heif_image_create of the libheif core is not under
src/.  Spec section 4.3: create(width, height, colorspace, chroma) returns an
Image; it starts with no planes. -/
def heif_image_create (width height : Nat) (colorspace : heif_colorspace)
    (chroma : heif_chroma) : heif_image :=
  { width := width, height := height, colorspace := colorspace, chroma := chroma, planes := [] }

/-- Modelled from the spec: heif_image_add_plane of the libheif core is not
under src/.  Spec section 4.3: add_plane(image, channel, width, height,
bit_depth) appends a plane of the given dimensions.  Allocation failure is not
modellable and is modelled as never happening. -/
def heif_image_add_plane (image : heif_image) (channel : heif_channel)
    (width height bit_depth : Nat) : heif_image :=
  { image with planes := image.planes ++ [⟨channel, width, height, bit_depth⟩] }

/-- NalUnit::bitExtracted: the bits_count bits of number starting at bit
position position_nr (1-based). -/
def bitExtracted (number bits_count position_nr : Nat) : Nat :=
  ((1 <<< bits_count) - 1) &&& (number >>> (position_nr - 1))

/-- class NalUnit: the stored byte range, the extracted unit type and the
declared size.  nal_data models the bytes nal_data_ptr points at. -/
structure NalUnit where
  nal_data : List Nat
  nal_unit_type : Nat
  nal_data_size : Nat
deriving DecidableEq

/-- NalUnit::set_data over a buffer cdata with the data starting at index ptr
and declared length n: stores the byte range and extracts the unit type from
the first byte (bitExtracted(data[0], 6, 2)).  The source reads
nal_data_ptr[0] unconditionally, also when n = 0; the index of that read is
tracked separately by pushDataAux. -/
def NalUnit.set_data (cdata : List Nat) (ptr n : Nat) : NalUnit :=
  { nal_data := (cdata.drop ptr).take n
    nal_unit_type := bitExtracted (cdata.getD ptr 0 % 256) 6 2
    nal_data_size := n }

def NAL_UNIT_VPS_NUT : Nat := 32
def NAL_UNIT_SPS_NUT : Nat := 33
def NAL_UNIT_PPS_NUT : Nat := 34
def NAL_UNIT_IDR_W_RADL : Nat := 19
def NAL_UNIT_IDR_N_LP : Nat := 20

/-- The decoder instance state: std::map<int, NalUnit*> NalMap (modelled as an
association list with unique keys, last assignment winning) and the
strict_decoding flag. -/
structure ffmpeg_decoder where
  NalMap : List (Nat × NalUnit)
  strict_decoding : Bool
deriving DecidableEq

/-- std::map assignment NalMap[key] = value: replaces the entry for key if
present, inserts it otherwise. -/
def mapInsert (key : Nat) (value : NalUnit) : List (Nat × NalUnit) → List (Nat × NalUnit)
  | [] => [(key, value)]
  | (k, v) :: rest => if k = key then (key, value) :: rest else (k, v) :: mapInsert key value rest

/-- std::map lookup: NalMap.count(key) > 0 is modelled as (mapLookup key m).isSome
and the guarded access NalMap[key] as the value found. -/
def mapLookup (key : Nat) : List (Nat × NalUnit) → Option NalUnit
  | [] => none
  | (k, v) :: rest => if k = key then some v else mapLookup key rest

/-- ffmpeg_new_decoder: a fresh instance has an empty NalMap and
strict_decoding defaulted to false. -/
def ffmpeg_new_decoder : ffmpeg_decoder := { NalMap := [], strict_decoding := false }

/-- ffmpeg_set_strict_decoding: stores the flag (C int-to-bool conversion). -/
def ffmpeg_set_strict_decoding (decoder : ffmpeg_decoder) (flag : Int) : ffmpeg_decoder :=
  { decoder with strict_decoding := flag != 0 }

/-- Outcome of the ffmpeg_v1_push_data loop: the error if it returned early
(none means it consumed the whole buffer and returns success), the NalMap as
mutated so far (the source mutates the map in place, so units parsed before an
error remain inserted), and the list of buffer indices the loop read. -/
structure PushOutcome where
  err : Option heif_error
  map : List (Nat × NalUnit)
  reads : List Nat
deriving DecidableEq

/-- The while loop of ffmpeg_v1_push_data.  At each position: if fewer than 4
bytes remain, fail with End_of_data; read a 4-byte big-endian length; if the
declared length exceeds the remaining bytes, fail with End_of_data; otherwise
build a NalUnit from the following bytes and assign it to
NalMap[unit_type].  reads records every buffer index the iteration touches:
the four length bytes and the first data byte that NalUnit::set_data reads
unconditionally (index ptr + 4, which is out of range when a unit of declared
length 0 ends the buffer). -/
def pushDataAux (cdata : List Nat) (size : Nat) (m : List (Nat × NalUnit)) (ptr : Nat) :
    PushOutcome :=
  if h : ptr < size then
    if 4 > size - ptr then
      { err := some { code := .heif_error_Decoder_plugin_error,
                      subcode := .heif_suberror_End_of_data, message := kEmptyString }
        map := m, reads := [] }
    else
      let nal_size : Nat :=
        (cdata.getD ptr 0 % 256) <<< 24 ||| (cdata.getD (ptr + 1) 0 % 256) <<< 16 |||
          (cdata.getD (ptr + 2) 0 % 256) <<< 8 ||| (cdata.getD (ptr + 3) 0 % 256)
      if nal_size > size - (ptr + 4) then
        { err := some { code := .heif_error_Decoder_plugin_error,
                        subcode := .heif_suberror_End_of_data, message := kEmptyString }
          map := m, reads := [ptr, ptr + 1, ptr + 2, ptr + 3] }
      else
        let nal_unit := NalUnit.set_data cdata (ptr + 4) nal_size
        let rest := pushDataAux cdata size (mapInsert nal_unit.nal_unit_type nal_unit m)
          (ptr + 4 + nal_size)
        { err := rest.err, map := rest.map
          reads := [ptr, ptr + 1, ptr + 2, ptr + 3, ptr + 4] ++ rest.reads }
  else
    { err := none, map := m, reads := [] }
termination_by size - ptr
decreasing_by omega

/-- ffmpeg_v1_push_data: runs the parse loop over the buffer and installs the
mutated NalMap; returns heif_error_success when the loop consumed the whole
buffer. -/
def ffmpeg_v1_push_data (decoder : ffmpeg_decoder) (data : List Nat) :
    heif_error × ffmpeg_decoder :=
  let o := pushDataAux data data.length decoder.NalMap 0
  (match o.err with
   | some e => e
   | none => heif_error_success,
   { decoder with NalMap := o.map })

/-- enum AVPixelFormat (libavcodec), restricted to the values the source
tests; all others are collapsed into one constructor carrying the raw value. -/
inductive AVPixelFormat where
  | AV_PIX_FMT_YUV420P
  | AV_PIX_FMT_YUVJ420P
  | AV_PIX_FMT_YUV420P10LE
  | AV_PIX_FMT_other (code : Nat)
deriving DecidableEq

/-- The decoded AVFrame data hevc_decode reads: dimensions and pixel format.
ffmpeg frame dimensions are nonnegative ints, modelled as Nat. -/
structure AVFrame where
  width : Nat
  height : Nat
  pix_fmt : AVPixelFormat
deriving DecidableEq

/-- channel2plane of hevc_decode. -/
def channel2plane : List heif_channel :=
  [.heif_channel_Y, .heif_channel_Cb, .heif_channel_Cr]

/-- The plane loop of hevc_decode (for channel = 0, 1, 2): bpp is 10 for
AV_PIX_FMT_YUV420P10LE, else 8; the luma plane (channel 0) gets the frame
dimensions and each chroma plane gets width >> 1 and height >> 1; a zero
dimension aborts with Invalid_image_size (the source releases the image and
returns); otherwise the plane is added and the pixel rows are copied. -/
def hevc_decode_plane_loop (hevc_frame : AVFrame) :
    List Nat → heif_image → Except heif_error heif_image
  | [], image => .ok image
  | channel :: rest, image =>
    let bpp : Nat := if hevc_frame.pix_fmt = .AV_PIX_FMT_YUV420P10LE then 10 else 8
    let w := if channel = 0 then hevc_frame.width else hevc_frame.width >>> 1
    let h := if channel = 0 then hevc_frame.height else hevc_frame.height >>> 1
    if w = 0 ∨ h = 0 then
      .error { code := .heif_error_Decoder_plugin_error,
               subcode := .heif_suberror_Invalid_image_size, message := kEmptyString }
    else
      hevc_decode_plane_loop hevc_frame rest
        (heif_image_add_plane image (channel2plane.getD channel .heif_channel_Y) w h bpp)

/-- hevc_decode, from the point where a frame has been received: for one of
the three supported 4:2:0 pixel formats, create a YCbCr 4:2:0 image with the
frame dimensions and fill the three planes; for any other pixel format fail
with Unsupported_feature / Unsupported_color_conversion. -/
def hevc_decode (hevc_frame : AVFrame) : Except heif_error heif_image :=
  if hevc_frame.pix_fmt = .AV_PIX_FMT_YUV420P ∨ hevc_frame.pix_fmt = .AV_PIX_FMT_YUVJ420P ∨
      hevc_frame.pix_fmt = .AV_PIX_FMT_YUV420P10LE then
    hevc_decode_plane_loop hevc_frame [0, 1, 2]
      (heif_image_create hevc_frame.width hevc_frame.height
        .heif_colorspace_YCbCr .heif_chroma_420)
  else
    .error { code := .heif_error_Unsupported_feature,
             subcode := .heif_suberror_Unsupported_color_conversion,
             message := "Pixel format not implemented" }

/-- Outcome of the libavcodec pipeline (packet/parser/codec allocation,
av_parser_parse2 and avcodec_send_packet/receive_frame): either some error
reported by one of those calls, or one decoded frame.  The library is
external, so it is abstracted as an oracle. -/
inductive BackendOutcome where
  | fail (e : heif_error)
  | frame (f : AVFrame)

/-- The abstract libavcodec backend: a function from the assembled Annex-B
bitstream to the pipeline outcome. -/
def Backend : Type := List Nat → BackendOutcome

/-- hevc_AnnexB_StartCode. -/
def hevc_AnnexB_StartCode : List Nat := [0, 0, 0, 1]

/-- The Annex-B bitstream ffmpeg_v1_decode_image assembles: start code + VPS +
start code + SPS + start code + PPS + start code + IDR picture. -/
def hevc_bitstream (vps sps pps idr : NalUnit) : List Nat :=
  hevc_AnnexB_StartCode ++ vps.nal_data ++ hevc_AnnexB_StartCode ++ sps.nal_data ++
    hevc_AnnexB_StartCode ++ pps.nal_data ++ hevc_AnnexB_StartCode ++ idr.nal_data

/-- The End_of_data error ffmpeg_v1_decode_image returns when a mandatory NAL
unit is missing. -/
def unexpected_end_of_data : heif_error :=
  { code := .heif_error_Decoder_plugin_error, subcode := .heif_suberror_End_of_data,
    message := "Unexpected end of data" }

/-- The tail of ffmpeg_v1_decode_image once all mandatory units were found:
the NalMap entries are freed and the map cleared, then the assembled bitstream
is handed to the backend and any received frame to hevc_decode.  In the source
the clearing happens before any backend call, so it occurs on every exit path
of this tail. -/
def ffmpeg_decode_bitstream (backend : Backend) (decoder : ffmpeg_decoder)
    (vps sps pps idr : NalUnit) : heif_error × Option heif_image × ffmpeg_decoder :=
  let cleared : ffmpeg_decoder := { decoder with NalMap := [] }
  match backend (hevc_bitstream vps sps pps idr) with
  | .fail e => (e, none, cleared)
  | .frame f =>
    match hevc_decode f with
    | .error e => (e, none, cleared)
    | .ok img => (heif_error_success, some img, cleared)

/-- ffmpeg_v1_decode_image: fails with "Unexpected end of data" (leaving the
NalMap untouched) unless VPS, SPS and PPS are all present and at least one of
the two IDR picture types is present; IDR_W_RADL is preferred over IDR_N_LP;
otherwise clears the NalMap and decodes. -/
def ffmpeg_v1_decode_image (backend : Backend) (decoder : ffmpeg_decoder) :
    heif_error × Option heif_image × ffmpeg_decoder :=
  match mapLookup NAL_UNIT_VPS_NUT decoder.NalMap, mapLookup NAL_UNIT_SPS_NUT decoder.NalMap,
      mapLookup NAL_UNIT_PPS_NUT decoder.NalMap with
  | some vps, some sps, some pps =>
    match mapLookup NAL_UNIT_IDR_W_RADL decoder.NalMap, mapLookup NAL_UNIT_IDR_N_LP decoder.NalMap with
    | some idr, _ => ffmpeg_decode_bitstream backend decoder vps sps pps idr
    | none, some idr => ffmpeg_decode_bitstream backend decoder vps sps pps idr
    | none, none => (unexpected_end_of_data, none, decoder)
  | _, _, _ => (unexpected_end_of_data, none, decoder)

/-- FFMPEG_DECODER_PLUGIN_PRIORITY. -/
def FFMPEG_DECODER_PLUGIN_PRIORITY : Nat := 90

/-- ffmpeg_does_support_format: the plugin priority for HEVC, 0 for every
other format. -/
def ffmpeg_does_support_format (format : heif_compression_format) : Nat :=
  if format = .heif_compression_HEVC then FFMPEG_DECODER_PLUGIN_PRIORITY else 0

/-- The capability part of a struct heif_decoder_plugin descriptor: the format
support query and the plugin id string. -/
structure heif_decoder_plugin where
  does_support_format : heif_compression_format → Nat
  id : String

/-- The decoder_ffmpeg plugin descriptor (capability part). -/
def decoder_ffmpeg : heif_decoder_plugin :=
  { does_support_format := ffmpeg_does_support_format, id := "ffmpeg" }

/-- Modelled from the spec: plugin selection is implemented in the libheif
core, which is not under src/.  Spec sections 4.4 and 8: among all registered
decoders whose does_support_format returns nonzero for the requested format,
the one with the highest priority is chosen; ties are broken by registration
order, first registered wins. -/
def select_decoder_plugin (plugins : List heif_decoder_plugin)
    (format : heif_compression_format) : Option heif_decoder_plugin :=
  plugins.foldl
    (fun best p =>
      if p.does_support_format format = 0 then best
      else
        match best with
        | none => some p
        | some b =>
          if b.does_support_format format < p.does_support_format format then some p else some b)
    none

/-- heif::Error of heif_cxx.h: copies code, subcode and message out of a
struct heif_error. -/
structure Error where
  m_code : heif_error_code
  m_subcode : heif_suberror_code
  m_message : String
deriving DecidableEq

/-- The Error(const heif_error&) constructor: fields are taken over
unchanged. -/
def Error.ofHeif (err : heif_error) : Error :=
  { m_code := err.code, m_subcode := err.subcode, m_message := err.message }

/-- operator bool() of heif::Error: true exactly when the code differs from
heif_error_Ok. -/
def Error.operatorBool (e : Error) : Bool :=
  e.m_code != .heif_error_Ok

/-- Context::read_from_file: wraps the result of the underlying C call
(passed in as c_result, since the C library is external) in an Error and
throws it when it converts to true. -/
def Context.read_from_file (c_result : heif_error) : Except Error Unit :=
  let err := Error.ofHeif c_result
  if err.operatorBool then .error err else .ok ()

/-- Context::get_primary_image_ID: the underlying C call returns an error and
writes an id; throws on error, returns the id otherwise. -/
def Context.get_primary_image_ID (c_result : heif_error) (c_id : Nat) : Except Error Nat :=
  let err := Error.ofHeif c_result
  if err.operatorBool then .error err else .ok c_id

/-- ImageHandle::decode_image: the underlying heif_decode_image call returns
an error and writes an image; throws on error, returns the image otherwise. -/
def ImageHandle.decode_image (c_result : heif_error) (c_out_img : heif_image) :
    Except Error heif_image :=
  let err := Error.ofHeif c_result
  if err.operatorBool then .error err else .ok c_out_img

/-- Image::create: the underlying heif_image_create call returns an error and
writes an image; on error the member image is reset and the Error thrown,
otherwise the member holds the new image. -/
def Image.create (c_result : heif_error) (c_image : heif_image) : Except Error heif_image :=
  let err := Error.ofHeif c_result
  if err.operatorBool then .error err else .ok c_image

/-- Encoder::set_lossy_quality: throws when the underlying C call fails. -/
def Encoder.set_lossy_quality (c_result : heif_error) : Except Error Unit :=
  let err := Error.ofHeif c_result
  if err.operatorBool then .error err else .ok ()

/-- Encoder::set_integer_parameter: throws when the underlying C call
fails. -/
def Encoder.set_integer_parameter (c_result : heif_error) : Except Error Unit :=
  let err := Error.ofHeif c_result
  if err.operatorBool then .error err else .ok ()

/-- One call against a decoder instance: a push_data call with a byte buffer,
or a decode_image call under a given backend oracle. -/
inductive DecoderCall where
  | push_call (data : List Nat)
  | decode_call (backend : Backend)

/-- Run one call, returning the observable result (the heif_error and, for
decode, the produced image) and the successor state. -/
def runCall (c : DecoderCall) (d : ffmpeg_decoder) :
    (heif_error × Option heif_image) × ffmpeg_decoder :=
  match c with
  | .push_call data =>
    let r := ffmpeg_v1_push_data d data
    ((r.1, none), r.2)
  | .decode_call backend =>
    let r := ffmpeg_v1_decode_image backend d
    ((r.1, r.2.1), r.2.2)

/-- Run a sequence of calls, collecting the observable results. -/
def runCalls : List DecoderCall → ffmpeg_decoder →
    List (heif_error × Option heif_image) × ffmpeg_decoder
  | [], d => ([], d)
  | c :: cs, d =>
    let r := runCall c d
    let rest := runCalls cs r.2
    (r.1 :: rest.1, rest.2)

/-- The 4-byte big-endian length field that precedes a sub-unit of length n in
the elementary-stream format ffmpeg_v1_push_data parses. -/
def nal_size_field (n : Nat) : List Nat :=
  [n / 2 ^ 24 % 256, n / 2 ^ 16 % 256, n / 2 ^ 8 % 256, n % 256]

/-- A well-formed push_data input: the concatenation of sub-units, each
preceded by its 4-byte big-endian length field. -/
def concatNalUnits (units : List (List Nat)) : List Nat :=
  units.foldr (fun u acc => nal_size_field u.length ++ u ++ acc) []

/-- The unit-type tag of a sub-unit: bits 2..7 of its first byte, as
bitExtracted(data[0], 6, 2) computes it. -/
def nal_unit_tag (u : List Nat) : Nat :=
  bitExtracted (u.getD 0 0 % 256) 6 2

/-- The NalUnit that push_data builds for a sub-unit u. -/
def toNalUnit (u : List Nat) : NalUnit :=
  { nal_data := u, nal_unit_type := nal_unit_tag u, nal_data_size := u.length }

/-- A sample accumulated NalMap holding one VPS (first byte 64, tag 32), one
SPS (first byte 66, tag 33), one PPS (first byte 68, tag 34) and one IDR_W_RADL
picture (first byte 38, tag 19), used to instantiate theorems at concrete
inputs. -/
def sample_nal_map : List (Nat × NalUnit) :=
  [(32, ⟨[64], 32, 1⟩), (33, ⟨[66], 33, 1⟩), (34, ⟨[68], 34, 1⟩), (19, ⟨[38], 19, 1⟩)]

/-- A decoder instance whose NalMap holds all mandatory units. -/
def sample_decoder : ffmpeg_decoder := { NalMap := sample_nal_map, strict_decoding := false }

/-- The decoder state after pushing a single coded IDR picture (and nothing
else) into a fresh instance: a sub-unit pushed out of order, before any
parameter set. -/
def pushed_idr_only : ffmpeg_decoder :=
  (ffmpeg_v1_push_data ffmpeg_new_decoder [0, 0, 0, 1, 38]).2

/-- A backend oracle that always decodes to a 4x4 frame in the supported
planar 4:2:0 format. -/
def backend_yuv420_4x4 : Backend := fun _ => .frame ⟨4, 4, .AV_PIX_FMT_YUV420P⟩

/-- A backend oracle that always fails as av_packet_alloc does on resource
exhaustion. -/
def backend_alloc_fail : Backend := fun _ =>
  .fail { code := .heif_error_Memory_allocation_error, subcode := .heif_suberror_Unspecified,
          message := "av_packet_alloc returned error" }

theorem mapLookup_mapInsert (key t : Nat) (v : NalUnit) (m : List (Nat × NalUnit)) :
    mapLookup t (mapInsert key v m) = if t = key then some v else mapLookup t m := by
  induction m with
  | nil =>
    simp only [mapInsert, mapLookup]
    split_ifs with h1 h2 <;> first | rfl | omega
  | cons hd tl ih =>
    obtain ⟨k, w⟩ := hd
    by_cases hk : k = key
    · subst hk
      simp only [mapInsert, if_pos rfl, mapLookup]
      split_ifs with h1 h2 <;> first | rfl | omega
    · simp only [mapInsert, if_neg hk, mapLookup, ih]
      split_ifs with h1 h2 <;> first | rfl | omega

theorem lor_eq_add_of_lt (a b i : Nat) (h : b < 2 ^ i) : a * 2 ^ i ||| b = a * 2 ^ i + b := by
  rw [mul_comm]
  exact (Nat.mul_add_lt_is_or h a).symm

theorem parse_nal_size_digits (n : Nat) (h : n < 2 ^ 32) :
    (n / 2 ^ 24 % 256 % 256) <<< 24 ||| (n / 2 ^ 16 % 256 % 256) <<< 16 |||
      (n / 2 ^ 8 % 256 % 256) <<< 8 ||| (n % 256 % 256) = n := by
  rw [Nat.mod_mod_of_dvd _ dvd_rfl, Nat.mod_mod_of_dvd _ dvd_rfl, Nat.mod_mod_of_dvd _ dvd_rfl,
    Nat.mod_mod_of_dvd _ dvd_rfl]
  rw [Nat.shiftLeft_eq, Nat.shiftLeft_eq, Nat.shiftLeft_eq]
  have h2 : n / 2 ^ 16 % 256 * 2 ^ 16 < 2 ^ 24 := by
    have := Nat.mod_lt (n / 2 ^ 16) (show 0 < 256 by norm_num)
    norm_num at this ⊢
    omega
  have h1 : n / 2 ^ 8 % 256 * 2 ^ 8 < 2 ^ 16 := by
    have := Nat.mod_lt (n / 2 ^ 8) (show 0 < 256 by norm_num)
    norm_num at this ⊢
    omega
  have h0 : n % 256 < 2 ^ 8 := by
    have := Nat.mod_lt n (show 0 < 256 by norm_num)
    norm_num
    omega
  rw [lor_eq_add_of_lt _ _ 24 h2]
  rw [show n / 2 ^ 24 % 256 * 2 ^ 24 + n / 2 ^ 16 % 256 * 2 ^ 16 =
    (n / 2 ^ 24 % 256 * 2 ^ 8 + n / 2 ^ 16 % 256) * 2 ^ 16 by ring]
  rw [lor_eq_add_of_lt _ _ 16 h1]
  rw [show (n / 2 ^ 24 % 256 * 2 ^ 8 + n / 2 ^ 16 % 256) * 2 ^ 16 + n / 2 ^ 8 % 256 * 2 ^ 8 =
    ((n / 2 ^ 24 % 256 * 2 ^ 8 + n / 2 ^ 16 % 256) * 2 ^ 8 + n / 2 ^ 8 % 256) * 2 ^ 8 by ring]
  rw [lor_eq_add_of_lt _ _ 8 h0]
  norm_num at h ⊢
  omega

theorem pushDataAux_concat :
    ∀ (units : List (List Nat)), (∀ u ∈ units, u ≠ [] ∧ u.length < 2 ^ 32) →
      ∀ (pre : List Nat) (m : List (Nat × NalUnit)),
        (pushDataAux (pre ++ concatNalUnits units) (pre ++ concatNalUnits units).length m
            pre.length).err = none ∧
        (pushDataAux (pre ++ concatNalUnits units) (pre ++ concatNalUnits units).length m
            pre.length).map =
          units.foldl (fun mm u => mapInsert (nal_unit_tag u) (toNalUnit u) mm) m := by
  intro units
  induction units with
  | nil =>
    intro _ pre m
    rw [pushDataAux]
    simp [concatNalUnits]
  | cons u us ih =>
    intro hu pre m
    obtain ⟨hu0, hu1⟩ := hu u (List.mem_cons_self u us)
    have hus : ∀ w ∈ us, w ≠ [] ∧ w.length < 2 ^ 32 :=
      fun w hw => hu w (List.mem_cons_of_mem u hw)
    have hupos : 0 < u.length := List.length_pos.mpr hu0
    rw [show concatNalUnits (u :: us) = nal_size_field u.length ++ (u ++ concatNalUnits us)
      from rfl]
    have hslen : (pre ++ (nal_size_field u.length ++ (u ++ concatNalUnits us))).length
        = pre.length + (4 + (u.length + (concatNalUnits us).length)) := by
      simp [nal_size_field]
      omega
    have cond1 : pre.length
        < (pre ++ (nal_size_field u.length ++ (u ++ concatNalUnits us))).length := by
      rw [hslen]; omega
    have cond2 : ¬ (4 > (pre ++ (nal_size_field u.length ++ (u ++ concatNalUnits us))).length
        - pre.length) := by
      rw [hslen]; omega
    have g0 : (pre ++ (nal_size_field u.length ++ (u ++ concatNalUnits us))).getD pre.length 0
        = u.length / 2 ^ 24 % 256 := by
      rw [List.getD_append_right pre _ 0 pre.length le_rfl, Nat.sub_self]
      rfl
    have g1 : (pre ++ (nal_size_field u.length ++ (u ++ concatNalUnits us))).getD
        (pre.length + 1) 0 = u.length / 2 ^ 16 % 256 := by
      rw [List.getD_append_right pre _ 0 (pre.length + 1) (Nat.le_add_right _ _),
        Nat.add_sub_cancel_left]
      rfl
    have g2 : (pre ++ (nal_size_field u.length ++ (u ++ concatNalUnits us))).getD
        (pre.length + 2) 0 = u.length / 2 ^ 8 % 256 := by
      rw [List.getD_append_right pre _ 0 (pre.length + 2) (Nat.le_add_right _ _),
        Nat.add_sub_cancel_left]
      rfl
    have g3 : (pre ++ (nal_size_field u.length ++ (u ++ concatNalUnits us))).getD
        (pre.length + 3) 0 = u.length % 256 := by
      rw [List.getD_append_right pre _ 0 (pre.length + 3) (Nat.le_add_right _ _),
        Nat.add_sub_cancel_left]
      rfl
    have hns : ((pre ++ (nal_size_field u.length ++ (u ++ concatNalUnits us))).getD
          pre.length 0 % 256) <<< 24 |||
        ((pre ++ (nal_size_field u.length ++ (u ++ concatNalUnits us))).getD
          (pre.length + 1) 0 % 256) <<< 16 |||
        ((pre ++ (nal_size_field u.length ++ (u ++ concatNalUnits us))).getD
          (pre.length + 2) 0 % 256) <<< 8 |||
        ((pre ++ (nal_size_field u.length ++ (u ++ concatNalUnits us))).getD
          (pre.length + 3) 0 % 256) = u.length := by
      rw [g0, g1, g2, g3]
      exact parse_nal_size_digits u.length hu1
    have cond3 : ¬ (u.length
        > (pre ++ (nal_size_field u.length ++ (u ++ concatNalUnits us))).length
          - (pre.length + 4)) := by
      rw [hslen]; omega
    have hpf : (pre ++ nal_size_field u.length).length = pre.length + 4 := by
      simp [nal_size_field]
    have hregroup : pre ++ (nal_size_field u.length ++ (u ++ concatNalUnits us))
        = (pre ++ nal_size_field u.length) ++ (u ++ concatNalUnits us) := by
      simp [List.append_assoc]
    have hdata : ((pre ++ (nal_size_field u.length ++ (u ++ concatNalUnits us))).drop
        (pre.length + 4)).take u.length = u := by
      rw [hregroup, ← hpf, List.drop_left, List.take_left]
    have htypebyte : (pre ++ (nal_size_field u.length ++ (u ++ concatNalUnits us))).getD
        (pre.length + 4) 0 = u.getD 0 0 := by
      rw [hregroup, ← hpf, List.getD_append_right _ _ 0 _ le_rfl, Nat.sub_self]
      exact List.getD_append u (concatNalUnits us) 0 0 hupos
    have hset : NalUnit.set_data (pre ++ (nal_size_field u.length ++ (u ++ concatNalUnits us)))
        (pre.length + 4) u.length = toNalUnit u := by
      unfold NalUnit.set_data toNalUnit nal_unit_tag
      rw [hdata, htypebyte]
    have hregroup2 : pre ++ (nal_size_field u.length ++ (u ++ concatNalUnits us))
        = ((pre ++ nal_size_field u.length) ++ u) ++ concatNalUnits us := by
      simp [List.append_assoc]
    have hptr : pre.length + 4 + u.length = ((pre ++ nal_size_field u.length) ++ u).length := by
      simp [nal_size_field]
      omega
    rw [pushDataAux, dif_pos cond1, if_neg cond2]
    simp only [hns, hset]
    rw [if_neg cond3]
    rw [show (toNalUnit u).nal_unit_type = nal_unit_tag u from rfl]
    rw [hregroup2, hptr, List.foldl_cons]
    exact ⟨(ih hus _ _).1, (ih hus _ _).2⟩

theorem decode_image_missing_eod (backend : Backend) (d : ffmpeg_decoder)
    (h : mapLookup NAL_UNIT_VPS_NUT d.NalMap = none ∨
      mapLookup NAL_UNIT_SPS_NUT d.NalMap = none ∨
      mapLookup NAL_UNIT_PPS_NUT d.NalMap = none ∨
      (mapLookup NAL_UNIT_IDR_W_RADL d.NalMap = none ∧
        mapLookup NAL_UNIT_IDR_N_LP d.NalMap = none)) :
    ffmpeg_v1_decode_image backend d = (unexpected_end_of_data, none, d) := by
  rcases h with h | h | h | ⟨h1, h2⟩
  · cases hs : mapLookup NAL_UNIT_SPS_NUT d.NalMap <;>
      cases hp : mapLookup NAL_UNIT_PPS_NUT d.NalMap <;>
      simp [ffmpeg_v1_decode_image, h, hs, hp]
  · cases hv : mapLookup NAL_UNIT_VPS_NUT d.NalMap <;>
      cases hp : mapLookup NAL_UNIT_PPS_NUT d.NalMap <;>
      simp [ffmpeg_v1_decode_image, h, hv, hp]
  · cases hv : mapLookup NAL_UNIT_VPS_NUT d.NalMap <;>
      cases hs : mapLookup NAL_UNIT_SPS_NUT d.NalMap <;>
      simp [ffmpeg_v1_decode_image, h, hv, hs]
  · cases hv : mapLookup NAL_UNIT_VPS_NUT d.NalMap <;>
      cases hs : mapLookup NAL_UNIT_SPS_NUT d.NalMap <;>
      cases hp : mapLookup NAL_UNIT_PPS_NUT d.NalMap <;>
      simp [ffmpeg_v1_decode_image, hv, hs, hp, h1, h2]

theorem decode_bitstream_state (backend : Backend) (d : ffmpeg_decoder)
    (vps sps pps idr : NalUnit) :
    (ffmpeg_decode_bitstream backend d vps sps pps idr).2.2 = { d with NalMap := [] } := by
  cases hb : backend (hevc_bitstream vps sps pps idr) with
  | fail e => simp [ffmpeg_decode_bitstream, hb]
  | frame f =>
    cases hd : hevc_decode f with
    | error e => simp [ffmpeg_decode_bitstream, hb, hd]
    | ok img => simp [ffmpeg_decode_bitstream, hb, hd]

theorem decode_image_present_clears (backend : Backend) (d : ffmpeg_decoder)
    (hv : mapLookup NAL_UNIT_VPS_NUT d.NalMap ≠ none)
    (hs : mapLookup NAL_UNIT_SPS_NUT d.NalMap ≠ none)
    (hp : mapLookup NAL_UNIT_PPS_NUT d.NalMap ≠ none)
    (hi : mapLookup NAL_UNIT_IDR_W_RADL d.NalMap ≠ none ∨
      mapLookup NAL_UNIT_IDR_N_LP d.NalMap ≠ none) :
    (ffmpeg_v1_decode_image backend d).2.2 = { d with NalMap := [] } := by
  rcases hvv : mapLookup NAL_UNIT_VPS_NUT d.NalMap with _ | vps
  · exact absurd hvv hv
  rcases hss : mapLookup NAL_UNIT_SPS_NUT d.NalMap with _ | sps
  · exact absurd hss hs
  rcases hpp : mapLookup NAL_UNIT_PPS_NUT d.NalMap with _ | pps
  · exact absurd hpp hp
  rcases hww : mapLookup NAL_UNIT_IDR_W_RADL d.NalMap with _ | idrw
  · rcases hnn : mapLookup NAL_UNIT_IDR_N_LP d.NalMap with _ | idrn
    · rcases hi with hi | hi
      · exact absurd hww hi
      · exact absurd hnn hi
    · simp only [ffmpeg_v1_decode_image, hvv, hss, hpp, hww, hnn]
      exact decode_bitstream_state backend d vps sps pps idrn
  · simp only [ffmpeg_v1_decode_image, hvv, hss, hpp, hww]
    exact decode_bitstream_state backend d vps sps pps idrw

theorem push_data_strict_parts (m : List (Nat × NalUnit)) (s1 s2 : Bool) (data : List Nat) :
    (ffmpeg_v1_push_data ⟨m, s1⟩ data).1 = (ffmpeg_v1_push_data ⟨m, s2⟩ data).1 ∧
    (ffmpeg_v1_push_data ⟨m, s1⟩ data).2.NalMap = (ffmpeg_v1_push_data ⟨m, s2⟩ data).2.NalMap ∧
    (ffmpeg_v1_push_data ⟨m, s1⟩ data).2.strict_decoding = s1 := by
  refine ⟨rfl, rfl, rfl⟩

theorem decode_bitstream_strict_parts (backend : Backend) (m : List (Nat × NalUnit))
    (s1 s2 : Bool) (vps sps pps idr : NalUnit) :
    (ffmpeg_decode_bitstream backend ⟨m, s1⟩ vps sps pps idr).1 =
      (ffmpeg_decode_bitstream backend ⟨m, s2⟩ vps sps pps idr).1 ∧
    (ffmpeg_decode_bitstream backend ⟨m, s1⟩ vps sps pps idr).2.1 =
      (ffmpeg_decode_bitstream backend ⟨m, s2⟩ vps sps pps idr).2.1 := by
  cases hb : backend (hevc_bitstream vps sps pps idr) with
  | fail e => simp [ffmpeg_decode_bitstream, hb]
  | frame f =>
    cases hd : hevc_decode f with
    | error e => simp [ffmpeg_decode_bitstream, hb, hd]
    | ok img => simp [ffmpeg_decode_bitstream, hb, hd]

theorem decode_image_strict_parts (backend : Backend) (m : List (Nat × NalUnit)) (s1 s2 : Bool) :
    (ffmpeg_v1_decode_image backend ⟨m, s1⟩).1 = (ffmpeg_v1_decode_image backend ⟨m, s2⟩).1 ∧
    (ffmpeg_v1_decode_image backend ⟨m, s1⟩).2.1 = (ffmpeg_v1_decode_image backend ⟨m, s2⟩).2.1 ∧
    (ffmpeg_v1_decode_image backend ⟨m, s1⟩).2.2.NalMap =
      (ffmpeg_v1_decode_image backend ⟨m, s2⟩).2.2.NalMap ∧
    (ffmpeg_v1_decode_image backend ⟨m, s1⟩).2.2.strict_decoding = s1 := by
  rcases hvv : mapLookup NAL_UNIT_VPS_NUT m with _ | vps
  · simp [ffmpeg_v1_decode_image, hvv]
  rcases hss : mapLookup NAL_UNIT_SPS_NUT m with _ | sps
  · simp [ffmpeg_v1_decode_image, hvv, hss]
  rcases hpp : mapLookup NAL_UNIT_PPS_NUT m with _ | pps
  · simp [ffmpeg_v1_decode_image, hvv, hss, hpp]
  rcases hww : mapLookup NAL_UNIT_IDR_W_RADL m with _ | idrw
  · rcases hnn : mapLookup NAL_UNIT_IDR_N_LP m with _ | idrn
    · simp [ffmpeg_v1_decode_image, hvv, hss, hpp, hww, hnn]
    · simp only [ffmpeg_v1_decode_image, hvv, hss, hpp, hww, hnn]
      refine ⟨(decode_bitstream_strict_parts backend m s1 s2 vps sps pps idrn).1,
        (decode_bitstream_strict_parts backend m s1 s2 vps sps pps idrn).2, ?_, ?_⟩
      · rw [decode_bitstream_state backend ⟨m, s1⟩ vps sps pps idrn,
          decode_bitstream_state backend ⟨m, s2⟩ vps sps pps idrn]
      · rw [decode_bitstream_state backend ⟨m, s1⟩ vps sps pps idrn]
  · simp only [ffmpeg_v1_decode_image, hvv, hss, hpp, hww]
    refine ⟨(decode_bitstream_strict_parts backend m s1 s2 vps sps pps idrw).1,
      (decode_bitstream_strict_parts backend m s1 s2 vps sps pps idrw).2, ?_, ?_⟩
    · rw [decode_bitstream_state backend ⟨m, s1⟩ vps sps pps idrw,
        decode_bitstream_state backend ⟨m, s2⟩ vps sps pps idrw]
    · rw [decode_bitstream_state backend ⟨m, s1⟩ vps sps pps idrw]

theorem runCalls_NalMap_parts (cs : List DecoderCall) :
    ∀ (m : List (Nat × NalUnit)) (s1 s2 : Bool),
      (runCalls cs ⟨m, s1⟩).1 = (runCalls cs ⟨m, s2⟩).1 ∧
      (runCalls cs ⟨m, s1⟩).2.NalMap = (runCalls cs ⟨m, s2⟩).2.NalMap := by
  induction cs with
  | nil => intro m s1 s2; exact ⟨rfl, rfl⟩
  | cons c cs ih =>
    intro m s1 s2
    cases c with
    | push_call data =>
      simp only [runCalls, runCall]
      rw [show (ffmpeg_v1_push_data ⟨m, s1⟩ data).2
          = (⟨(pushDataAux data data.length m 0).map, s1⟩ : ffmpeg_decoder) from rfl,
        show (ffmpeg_v1_push_data ⟨m, s2⟩ data).2
          = (⟨(pushDataAux data data.length m 0).map, s2⟩ : ffmpeg_decoder) from rfl,
        show (ffmpeg_v1_push_data ⟨m, s1⟩ data).1 = (ffmpeg_v1_push_data ⟨m, s2⟩ data).1
          from rfl]
      exact ⟨by rw [(ih _ s1 s2).1], (ih _ s1 s2).2⟩
    | decode_call backend =>
      obtain ⟨p1, p2, p3, p4⟩ := decode_image_strict_parts backend m s1 s2
      obtain ⟨q1, q2, q3, q4⟩ := decode_image_strict_parts backend m s2 s2
      simp only [runCalls, runCall]
      have e1 : (ffmpeg_v1_decode_image backend ⟨m, s1⟩).2.2
          = ⟨(ffmpeg_v1_decode_image backend ⟨m, s2⟩).2.2.NalMap, s1⟩ := by
        have heta : (ffmpeg_v1_decode_image backend ⟨m, s1⟩).2.2
            = ⟨(ffmpeg_v1_decode_image backend ⟨m, s1⟩).2.2.NalMap,
               (ffmpeg_v1_decode_image backend ⟨m, s1⟩).2.2.strict_decoding⟩ := rfl
        rw [heta, p3, p4]
      have e2 : (ffmpeg_v1_decode_image backend ⟨m, s2⟩).2.2
          = ⟨(ffmpeg_v1_decode_image backend ⟨m, s2⟩).2.2.NalMap, s2⟩ := by
        have heta : (ffmpeg_v1_decode_image backend ⟨m, s2⟩).2.2
            = ⟨(ffmpeg_v1_decode_image backend ⟨m, s2⟩).2.2.NalMap,
               (ffmpeg_v1_decode_image backend ⟨m, s2⟩).2.2.strict_decoding⟩ := rfl
        rw [heta, q4]
      rw [p1, p2, e1, e2]
      exact ⟨by rw [(ih _ s1 s2).1], (ih _ s1 s2).2⟩

theorem hevc_decode_ok_shape (f : AVFrame) (img : heif_image) (h : hevc_decode f = .ok img) :
    img.width = f.width ∧ img.height = f.height ∧ img.chroma = .heif_chroma_420 ∧
    img.colorspace = .heif_colorspace_YCbCr ∧
    img.planes.map (fun p => (p.channel, p.width, p.height)) =
      [(.heif_channel_Y, f.width, f.height),
       (.heif_channel_Cb, f.width / 2, f.height / 2),
       (.heif_channel_Cr, f.width / 2, f.height / 2)] := by
  unfold hevc_decode at h
  split at h
  · simp only [hevc_decode_plane_loop, heif_image_create, heif_image_add_plane,
      channel2plane] at h
    norm_num at h
    split at h
    · exact absurd h (by simp)
    split at h
    · exact absurd h (by simp)
    rw [Except.ok.injEq] at h
    subst h
    simp [Nat.shiftRight_one]
  · exact absurd h (by simp)

theorem decode_image_some_shape (backend : Backend) (d : ffmpeg_decoder) (img : heif_image)
    (h : (ffmpeg_v1_decode_image backend d).2.1 = some img) :
    img.chroma = .heif_chroma_420 ∧
    img.planes.map (fun p => (p.channel, p.width, p.height)) =
      [(.heif_channel_Y, img.width, img.height),
       (.heif_channel_Cb, img.width / 2, img.height / 2),
       (.heif_channel_Cr, img.width / 2, img.height / 2)] := by
  rcases hvv : mapLookup NAL_UNIT_VPS_NUT d.NalMap with _ | vps
  · simp [ffmpeg_v1_decode_image, hvv] at h
  rcases hss : mapLookup NAL_UNIT_SPS_NUT d.NalMap with _ | sps
  · simp [ffmpeg_v1_decode_image, hvv, hss] at h
  rcases hpp : mapLookup NAL_UNIT_PPS_NUT d.NalMap with _ | pps
  · simp [ffmpeg_v1_decode_image, hvv, hss, hpp] at h
  have main : ∀ idr : NalUnit,
      (ffmpeg_decode_bitstream backend d vps sps pps idr).2.1 = some img →
      img.chroma = .heif_chroma_420 ∧
      img.planes.map (fun p => (p.channel, p.width, p.height)) =
        [(.heif_channel_Y, img.width, img.height),
         (.heif_channel_Cb, img.width / 2, img.height / 2),
         (.heif_channel_Cr, img.width / 2, img.height / 2)] := by
    intro idr hb
    cases hbb : backend (hevc_bitstream vps sps pps idr) with
    | fail e => simp [ffmpeg_decode_bitstream, hbb] at hb
    | frame f =>
      cases hd : hevc_decode f with
      | error e => simp [ffmpeg_decode_bitstream, hbb, hd] at hb
      | ok img2 =>
        simp only [ffmpeg_decode_bitstream, hbb, hd, Option.some.injEq] at hb
        subst hb
        obtain ⟨hw, hh, hc, hcs, hpl⟩ := hevc_decode_ok_shape f img2 hd
        rw [hw, hh] at *
        exact ⟨hc, by rw [hpl, ← hw, ← hh]⟩
  rcases hww : mapLookup NAL_UNIT_IDR_W_RADL d.NalMap with _ | idrw
  · rcases hnn : mapLookup NAL_UNIT_IDR_N_LP d.NalMap with _ | idrn
    · simp [ffmpeg_v1_decode_image, hvv, hss, hpp, hww, hnn] at h
    · simp only [ffmpeg_v1_decode_image, hvv, hss, hpp, hww, hnn] at h
      exact main idrn h
  · simp only [ffmpeg_v1_decode_image, hvv, hss, hpp, hww] at h
    exact main idrw h

theorem mapLookup_foldl_insert (t : Nat) :
    ∀ (units : List (List Nat)) (m : List (Nat × NalUnit)),
      mapLookup t (units.foldl (fun mm u => mapInsert (nal_unit_tag u) (toNalUnit u) mm) m) =
        match units.reverse.find? (fun u => nal_unit_tag u == t) with
        | some u => some (toNalUnit u)
        | none => mapLookup t m := by
  intro units
  induction units with
  | nil => intro m; rfl
  | cons u us ih =>
    intro m
    rw [List.foldl_cons, ih, List.reverse_cons, List.find?_append]
    cases hf : us.reverse.find? (fun u => nal_unit_tag u == t) with
    | some v => simp [Option.or]
    | none =>
      simp only [Option.or, mapLookup_mapInsert]
      by_cases ht : nal_unit_tag u = t
      · simp [List.find?, ht]
      · have hbf : (nal_unit_tag u == t) = false := by simp [ht]
        rw [if_neg (fun e => ht e.symm)]
        simp [List.find?, hbf]

/-- Claim C2: whenever the accumulated sub-units are missing any of VPS, SPS,
PPS, or both coded IDR picture types, decode_image fails with the
Decoder_plugin_error / End_of_data error "Unexpected end of data", produces no
image, and leaves the accumulation state untouched.  In particular, pushing a
coded picture before the parameter sets and then decoding fails with end of
data (see the witness). -/
theorem C2_decode_without_mandatory_units_fails (backend : Backend) (d : ffmpeg_decoder)
    (h : mapLookup NAL_UNIT_VPS_NUT d.NalMap = none ∨
      mapLookup NAL_UNIT_SPS_NUT d.NalMap = none ∨
      mapLookup NAL_UNIT_PPS_NUT d.NalMap = none ∨
      (mapLookup NAL_UNIT_IDR_W_RADL d.NalMap = none ∧
        mapLookup NAL_UNIT_IDR_N_LP d.NalMap = none)) :
    ffmpeg_v1_decode_image backend d = (unexpected_end_of_data, none, d) :=
  decode_image_missing_eod backend d h

/-- Witness for C2: a coded IDR picture is pushed out of order (before any
parameter set) into a fresh decoder; decode_image then fails with
"Unexpected end of data", no image and an unchanged state. -/
theorem C2_witness :
    ffmpeg_v1_decode_image backend_alloc_fail pushed_idr_only =
      (unexpected_end_of_data, none, pushed_idr_only) := by
  refine C2_decode_without_mandatory_units_fails backend_alloc_fail pushed_idr_only (Or.inl ?_)
  show mapLookup NAL_UNIT_VPS_NUT pushed_idr_only.NalMap = none
  simp [pushed_idr_only, ffmpeg_v1_push_data, pushDataAux, NalUnit.set_data, mapInsert,
    bitExtracted, ffmpeg_new_decoder, mapLookup, NAL_UNIT_VPS_NUT]
  decide

/-- Claim C3 (code bug): the truncation checks of push_data do fail with an
End_of_data error when fewer than 4 bytes remain at a length position or when
a declared length exceeds the remaining bytes (first two conjuncts); but
NalUnit::set_data reads the first byte of every sub-unit unconditionally, so
on the 4-byte buffer 00 00 00 00, one sub-unit of declared length 0 ending at
the buffer end, push_data succeeds while having read buffer index 4, one past
the end of the supplied buffer (last three conjuncts). -/
theorem C3_push_data_reads_past_buffer_end :
    (pushDataAux [0, 0, 0] 3 [] 0).err =
      some { code := .heif_error_Decoder_plugin_error, subcode := .heif_suberror_End_of_data,
             message := kEmptyString } ∧
    (pushDataAux [0, 0, 0, 5, 1] 5 [] 0).err =
      some { code := .heif_error_Decoder_plugin_error, subcode := .heif_suberror_End_of_data,
             message := kEmptyString } ∧
    (pushDataAux [0, 0, 0, 0] 4 [] 0).err = none ∧
    (pushDataAux [0, 0, 0, 0] 4 [] 0).reads = [0, 1, 2, 3, 4] ∧
    ([0, 0, 0, 0] : List Nat).length = 4 := by
  refine ⟨?_, ?_, ?_, ?_, rfl⟩ <;>
    simp [pushDataAux, NalUnit.set_data, mapInsert, bitExtracted, kEmptyString]

/-- Counterexample for C4: the buffer holding the two sub-units 64 01 and
64 02 (both of unit-type tag 32) is a well-formed concatenation and push_data
succeeds on it, but afterwards only the later sub-unit is in the accumulation
state: the earlier sub-unit 64 01 is indexed nowhere, contradicting the claim
that every pushed sub-unit is indexed under its tag. -/
theorem C4_counterexample :
    concatNalUnits [[64, 1], [64, 2]] = [0, 0, 0, 2, 64, 1, 0, 0, 0, 2, 64, 2] ∧
    (ffmpeg_v1_push_data ffmpeg_new_decoder (concatNalUnits [[64, 1], [64, 2]])).1 =
      heif_error_success ∧
    (ffmpeg_v1_push_data ffmpeg_new_decoder (concatNalUnits [[64, 1], [64, 2]])).2.NalMap =
      [(32, toNalUnit [64, 2])] ∧
    nal_unit_tag [64, 1] = 32 ∧ toNalUnit [64, 1] ≠ toNalUnit [64, 2] := by
  refine ⟨rfl, ?_, ?_, by decide, by decide⟩ <;>
    simp [ffmpeg_v1_push_data, pushDataAux, NalUnit.set_data, mapInsert, bitExtracted,
      ffmpeg_new_decoder, concatNalUnits, nal_size_field, toNalUnit, nal_unit_tag] <;>
    decide

/-- Claim C4 (amended): pushing a well-formed concatenation of length-prefixed
nonempty sub-units succeeds, and afterwards each unit-type tag indexes the
last pushed sub-unit with that tag; tags not occurring in the buffer keep the
unit accumulated by earlier push_data calls on the same handle.  A sub-unit
followed by a later one with the same tag is overwritten, not retained. -/
theorem C4_pushed_units_indexed_by_tag_last_wins (d : ffmpeg_decoder) (units : List (List Nat))
    (h : ∀ u ∈ units, u ≠ [] ∧ u.length < 2 ^ 32) :
    (ffmpeg_v1_push_data d (concatNalUnits units)).1 = heif_error_success ∧
    ∀ t, mapLookup t (ffmpeg_v1_push_data d (concatNalUnits units)).2.NalMap =
      match units.reverse.find? (fun u => nal_unit_tag u == t) with
      | some u => some (toNalUnit u)
      | none => mapLookup t d.NalMap := by
  have hc := pushDataAux_concat units h [] d.NalMap
  simp only [List.nil_append, List.length_nil] at hc
  constructor
  · show (match (pushDataAux (concatNalUnits units) (concatNalUnits units).length d.NalMap 0).err
        with
      | some e => e
      | none => heif_error_success) = heif_error_success
    rw [hc.1]
  · intro t
    show mapLookup t
      (pushDataAux (concatNalUnits units) (concatNalUnits units).length d.NalMap 0).map = _
    rw [hc.2, mapLookup_foldl_insert]

/-- Witness for C4: pushing the three sub-units 64 01, 66, 64 02 into a fresh
decoder succeeds; tag 32 indexes the last sub-unit 64 02 and tag 33 indexes
the sub-unit 66. -/
theorem C4_witness :
    (ffmpeg_v1_push_data ffmpeg_new_decoder (concatNalUnits [[64, 1], [66], [64, 2]])).1 =
      heif_error_success ∧
    mapLookup 32
      (ffmpeg_v1_push_data ffmpeg_new_decoder (concatNalUnits [[64, 1], [66], [64, 2]])).2.NalMap =
      some (toNalUnit [64, 2]) ∧
    mapLookup 33
      (ffmpeg_v1_push_data ffmpeg_new_decoder (concatNalUnits [[64, 1], [66], [64, 2]])).2.NalMap =
      some (toNalUnit [66]) := by
  have h := C4_pushed_units_indexed_by_tag_last_wins ffmpeg_new_decoder [[64, 1], [66], [64, 2]]
    (by decide)
  refine ⟨h.1, ?_, ?_⟩
  · rw [h.2 32]; rfl
  · rw [h.2 33]; rfl

/-- Counterexample for C1: decoding a 3x2 frame in the supported planar 4:2:0
format succeeds and produces chroma planes of width 1 and height 1, but half
of the luma width 3 rounded UP is 2, not 1: the source computes width >> 1,
which rounds down. -/
theorem C1_counterexample :
    (ffmpeg_v1_decode_image (fun _ => .frame ⟨3, 2, .AV_PIX_FMT_YUV420P⟩) sample_decoder).2.1 =
      some { width := 3, height := 2, colorspace := .heif_colorspace_YCbCr,
             chroma := .heif_chroma_420,
             planes := [⟨.heif_channel_Y, 3, 2, 8⟩, ⟨.heif_channel_Cb, 1, 1, 8⟩,
               ⟨.heif_channel_Cr, 1, 1, 8⟩] } ∧
    (3 + 1) / 2 = 2 ∧ (1 : Nat) ≠ 2 :=
  ⟨rfl, rfl, by decide⟩

/-- Claim C1 (amended): every image successfully produced by decode_image is
in 4:2:0 chroma format, its luma plane has the image dimensions, and each
chroma plane has width and height equal to half the luma dimensions rounded
DOWN (integer division by two). -/
theorem C1_chroma_planes_half_rounded_down (backend : Backend) (d : ffmpeg_decoder)
    (img : heif_image) (h : (ffmpeg_v1_decode_image backend d).2.1 = some img) :
    img.chroma = .heif_chroma_420 ∧
    img.planes.map (fun p => (p.channel, p.width, p.height)) =
      [(.heif_channel_Y, img.width, img.height),
       (.heif_channel_Cb, img.width / 2, img.height / 2),
       (.heif_channel_Cr, img.width / 2, img.height / 2)] :=
  decode_image_some_shape backend d img h

/-- Witness for C1: a 4x4 frame decodes to an image with luma 4x4 and chroma
2x2 planes. -/
theorem C1_witness :
    (ffmpeg_v1_decode_image backend_yuv420_4x4 sample_decoder).2.1 =
      some { width := 4, height := 4, colorspace := .heif_colorspace_YCbCr,
             chroma := .heif_chroma_420,
             planes := [⟨.heif_channel_Y, 4, 4, 8⟩, ⟨.heif_channel_Cb, 2, 2, 8⟩,
               ⟨.heif_channel_Cr, 2, 2, 8⟩] } ∧
    ({ width := 4, height := 4, colorspace := .heif_colorspace_YCbCr,
       chroma := .heif_chroma_420,
       planes := [⟨.heif_channel_Y, 4, 4, 8⟩, ⟨.heif_channel_Cb, 2, 2, 8⟩,
         ⟨.heif_channel_Cr, 2, 2, 8⟩] } : heif_image).chroma = .heif_chroma_420 ∧
    ({ width := 4, height := 4, colorspace := .heif_colorspace_YCbCr,
       chroma := .heif_chroma_420,
       planes := [⟨.heif_channel_Y, 4, 4, 8⟩, ⟨.heif_channel_Cb, 2, 2, 8⟩,
         ⟨.heif_channel_Cr, 2, 2, 8⟩] } : heif_image).planes.map
        (fun p => (p.channel, p.width, p.height)) =
      [(.heif_channel_Y, 4, 4), (.heif_channel_Cb, 4 / 2, 4 / 2),
       (.heif_channel_Cr, 4 / 2, 4 / 2)] :=
  ⟨rfl, (C1_chroma_planes_half_rounded_down backend_yuv420_4x4 sample_decoder _ rfl).1,
    (C1_chroma_planes_half_rounded_down backend_yuv420_4x4 sample_decoder _ rfl).2⟩

/-- Claim C5: after a decode_image call that produces an image, the
accumulated NalMap has been cleared, and a second decode_image on the same
instance without re-pushing fails with "Unexpected end of data" and no image,
whatever the backend does. -/
theorem C5_successful_decode_clears_state (backend : Backend) (d : ffmpeg_decoder)
    (img : heif_image) (h : (ffmpeg_v1_decode_image backend d).2.1 = some img) :
    (ffmpeg_v1_decode_image backend d).2.2.NalMap = [] ∧
    ∀ backend2 : Backend,
      ffmpeg_v1_decode_image backend2 (ffmpeg_v1_decode_image backend d).2.2 =
        (unexpected_end_of_data, none, (ffmpeg_v1_decode_image backend d).2.2) := by
  rcases hvv : mapLookup NAL_UNIT_VPS_NUT d.NalMap with _ | vps
  · simp [ffmpeg_v1_decode_image, hvv] at h
  rcases hss : mapLookup NAL_UNIT_SPS_NUT d.NalMap with _ | sps
  · simp [ffmpeg_v1_decode_image, hvv, hss] at h
  rcases hpp : mapLookup NAL_UNIT_PPS_NUT d.NalMap with _ | pps
  · simp [ffmpeg_v1_decode_image, hvv, hss, hpp] at h
  have hidr : mapLookup NAL_UNIT_IDR_W_RADL d.NalMap ≠ none ∨
      mapLookup NAL_UNIT_IDR_N_LP d.NalMap ≠ none := by
    rcases hww : mapLookup NAL_UNIT_IDR_W_RADL d.NalMap with _ | idrw
    · rcases hnn : mapLookup NAL_UNIT_IDR_N_LP d.NalMap with _ | idrn
      · simp [ffmpeg_v1_decode_image, hvv, hss, hpp, hww, hnn] at h
      · exact Or.inr (by simp [hnn])
    · exact Or.inl (by simp [hww])
  have hclear := decode_image_present_clears backend d (by simp [hvv]) (by simp [hss])
    (by simp [hpp]) hidr
  refine ⟨by rw [hclear], fun backend2 => ?_⟩
  rw [hclear]
  exact decode_image_missing_eod backend2 _ (Or.inl rfl)

/-- Witness for C5: a successful decode on a fully fed instance leaves an
empty NalMap, and decoding again fails with end of data. -/
theorem C5_witness :
    (ffmpeg_v1_decode_image backend_yuv420_4x4 sample_decoder).2.2.NalMap = [] ∧
    ffmpeg_v1_decode_image backend_yuv420_4x4
        (ffmpeg_v1_decode_image backend_yuv420_4x4 sample_decoder).2.2 =
      (unexpected_end_of_data, none,
        (ffmpeg_v1_decode_image backend_yuv420_4x4 sample_decoder).2.2) := by
  have h := C5_successful_decode_clears_state backend_yuv420_4x4 sample_decoder
    { width := 4, height := 4, colorspace := .heif_colorspace_YCbCr,
      chroma := .heif_chroma_420,
      planes := [⟨.heif_channel_Y, 4, 4, 8⟩, ⟨.heif_channel_Cb, 2, 2, 8⟩,
        ⟨.heif_channel_Cr, 2, 2, 8⟩] } rfl
  exact ⟨h.1, h.2 backend_yuv420_4x4⟩

/-- Claim C9: when decode_image finds all mandatory sub-units present, the
NalMap is cleared no matter how decoding then proceeds (also on backend or
allocation failure), so a failed decode cannot be retried: a second
decode_image fails with "Unexpected end of data". -/
theorem C9_failed_decode_cannot_be_retried (backend : Backend) (d : ffmpeg_decoder)
    (hv : mapLookup NAL_UNIT_VPS_NUT d.NalMap ≠ none)
    (hs : mapLookup NAL_UNIT_SPS_NUT d.NalMap ≠ none)
    (hp : mapLookup NAL_UNIT_PPS_NUT d.NalMap ≠ none)
    (hi : mapLookup NAL_UNIT_IDR_W_RADL d.NalMap ≠ none ∨
      mapLookup NAL_UNIT_IDR_N_LP d.NalMap ≠ none) :
    (ffmpeg_v1_decode_image backend d).2.2.NalMap = [] ∧
    ∀ backend2 : Backend,
      ffmpeg_v1_decode_image backend2 (ffmpeg_v1_decode_image backend d).2.2 =
        (unexpected_end_of_data, none, (ffmpeg_v1_decode_image backend d).2.2) := by
  have hclear := decode_image_present_clears backend d hv hs hp hi
  refine ⟨by rw [hclear], fun backend2 => ?_⟩
  rw [hclear]
  exact decode_image_missing_eod backend2 _ (Or.inl rfl)

/-- Witness for C9: with all mandatory units pushed, a decode whose backend
fails at packet allocation returns the allocation error and no image, yet the
NalMap is cleared and a retry fails with end of data. -/
theorem C9_witness :
    (ffmpeg_v1_decode_image backend_alloc_fail sample_decoder).1 =
      { code := .heif_error_Memory_allocation_error, subcode := .heif_suberror_Unspecified,
        message := "av_packet_alloc returned error" } ∧
    (ffmpeg_v1_decode_image backend_alloc_fail sample_decoder).2.1 = none ∧
    (ffmpeg_v1_decode_image backend_alloc_fail sample_decoder).2.2.NalMap = [] ∧
    ffmpeg_v1_decode_image backend_alloc_fail
        (ffmpeg_v1_decode_image backend_alloc_fail sample_decoder).2.2 =
      (unexpected_end_of_data, none,
        (ffmpeg_v1_decode_image backend_alloc_fail sample_decoder).2.2) := by
  have h := C9_failed_decode_cannot_be_retried backend_alloc_fail sample_decoder
    (by decide) (by decide) (by decide) (Or.inl (by decide))
  exact ⟨rfl, rfl, h.1, h.2 backend_alloc_fail⟩

/-- Claim C7: whenever the backend delivers a frame whose pixel layout is not
one of the three supported 4:2:0 formats, hevc_decode fails with
Unsupported_feature / Unsupported_color_conversion, and decode_image returns
exactly that error with no image. -/
theorem C7_unsupported_pixel_format_rejected (d : ffmpeg_decoder) (f : AVFrame)
    (hf1 : f.pix_fmt ≠ .AV_PIX_FMT_YUV420P) (hf2 : f.pix_fmt ≠ .AV_PIX_FMT_YUVJ420P)
    (hf3 : f.pix_fmt ≠ .AV_PIX_FMT_YUV420P10LE)
    (hv : mapLookup NAL_UNIT_VPS_NUT d.NalMap ≠ none)
    (hs : mapLookup NAL_UNIT_SPS_NUT d.NalMap ≠ none)
    (hp : mapLookup NAL_UNIT_PPS_NUT d.NalMap ≠ none)
    (hi : mapLookup NAL_UNIT_IDR_W_RADL d.NalMap ≠ none ∨
      mapLookup NAL_UNIT_IDR_N_LP d.NalMap ≠ none) :
    hevc_decode f = .error { code := .heif_error_Unsupported_feature,
                             subcode := .heif_suberror_Unsupported_color_conversion,
                             message := "Pixel format not implemented" } ∧
    ffmpeg_v1_decode_image (fun _ => .frame f) d =
      ({ code := .heif_error_Unsupported_feature,
         subcode := .heif_suberror_Unsupported_color_conversion,
         message := "Pixel format not implemented" }, none, { d with NalMap := [] }) := by
  have hdec : hevc_decode f = .error { code := .heif_error_Unsupported_feature,
                                       subcode := .heif_suberror_Unsupported_color_conversion,
                                       message := "Pixel format not implemented" } := by
    unfold hevc_decode
    rw [if_neg (by simp [hf1, hf2, hf3])]
  refine ⟨hdec, ?_⟩
  rcases hvv : mapLookup NAL_UNIT_VPS_NUT d.NalMap with _ | vps
  · exact absurd hvv hv
  rcases hss : mapLookup NAL_UNIT_SPS_NUT d.NalMap with _ | sps
  · exact absurd hss hs
  rcases hpp : mapLookup NAL_UNIT_PPS_NUT d.NalMap with _ | pps
  · exact absurd hpp hp
  rcases hww : mapLookup NAL_UNIT_IDR_W_RADL d.NalMap with _ | idrw
  · rcases hnn : mapLookup NAL_UNIT_IDR_N_LP d.NalMap with _ | idrn
    · rcases hi with hi | hi
      · exact absurd hww hi
      · exact absurd hnn hi
    · simp only [ffmpeg_v1_decode_image, hvv, hss, hpp, hww, hnn, ffmpeg_decode_bitstream, hdec]
  · simp only [ffmpeg_v1_decode_image, hvv, hss, hpp, hww, ffmpeg_decode_bitstream, hdec]

/-- Witness for C7: a frame in an unsupported pixel format (raw enum value 0)
makes decode_image fail with the unsupported color conversion error. -/
theorem C7_witness :
    hevc_decode ⟨8, 8, .AV_PIX_FMT_other 0⟩ =
      .error { code := .heif_error_Unsupported_feature,
               subcode := .heif_suberror_Unsupported_color_conversion,
               message := "Pixel format not implemented" } ∧
    ffmpeg_v1_decode_image (fun _ => .frame ⟨8, 8, .AV_PIX_FMT_other 0⟩) sample_decoder =
      ({ code := .heif_error_Unsupported_feature,
         subcode := .heif_suberror_Unsupported_color_conversion,
         message := "Pixel format not implemented" }, none,
        { sample_decoder with NalMap := [] }) :=
  C7_unsupported_pixel_format_rejected sample_decoder ⟨8, 8, .AV_PIX_FMT_other 0⟩
    (by decide) (by decide) (by decide) (by decide) (by decide) (by decide)
    (Or.inl (by decide))

/-- Claim C6: ffmpeg_does_support_format is a pure function of the format
returning the positive priority 90 exactly for HEVC and 0 for every other
format, and the selection policy picks the priority-90 plugin over a
priority-50 plugin regardless of registration order. -/
theorem C6_hevc_priority_selection (p q : heif_decoder_plugin)
    (format : heif_compression_format)
    (hp : p.does_support_format format = 90) (hq : q.does_support_format format = 50) :
    ffmpeg_does_support_format .heif_compression_HEVC = FFMPEG_DECODER_PLUGIN_PRIORITY ∧
    FFMPEG_DECODER_PLUGIN_PRIORITY = 90 ∧ 0 < FFMPEG_DECODER_PLUGIN_PRIORITY ∧
    (∀ g : heif_compression_format, g ≠ .heif_compression_HEVC →
      ffmpeg_does_support_format g = 0) ∧
    select_decoder_plugin [p, q] format = some p ∧
    select_decoder_plugin [q, p] format = some p := by
  refine ⟨rfl, rfl, by decide, ?_, ?_, ?_⟩
  · intro g hg
    cases g <;> first | rfl | exact absurd rfl hg
  · simp [select_decoder_plugin, hp, hq]
  · simp [select_decoder_plugin, hp, hq]

/-- Witness for C6: against a mock plugin answering 50 for every format, the
ffmpeg plugin descriptor (priority 90) is selected for HEVC in either
registration order. -/
theorem C6_witness :
    select_decoder_plugin [decoder_ffmpeg, ⟨fun _ => 50, "mock50"⟩] .heif_compression_HEVC =
      some decoder_ffmpeg ∧
    select_decoder_plugin [⟨fun _ => 50, "mock50"⟩, decoder_ffmpeg] .heif_compression_HEVC =
      some decoder_ffmpeg := by
  have h := C6_hevc_priority_selection decoder_ffmpeg ⟨fun _ => 50, "mock50"⟩
    .heif_compression_HEVC rfl rfl
  exact ⟨h.2.2.2.2.1, h.2.2.2.2.2⟩

/-- Claim C8: each modelled wrapper of heif_cxx.h throws exactly when the
underlying C result has a code other than heif_error_Ok, the thrown Error
carries code, subcode and message unchanged, and the Error bool conversion is
true exactly for non-Ok codes. -/
theorem C8_wrappers_throw_iff_not_ok :
    (∀ r : heif_error, Context.read_from_file r =
      if r.code = .heif_error_Ok then .ok () else .error (Error.ofHeif r)) ∧
    (∀ (r : heif_error) (id : Nat), Context.get_primary_image_ID r id =
      if r.code = .heif_error_Ok then .ok id else .error (Error.ofHeif r)) ∧
    (∀ (r : heif_error) (img : heif_image), ImageHandle.decode_image r img =
      if r.code = .heif_error_Ok then .ok img else .error (Error.ofHeif r)) ∧
    (∀ (r : heif_error) (img : heif_image), Image.create r img =
      if r.code = .heif_error_Ok then .ok img else .error (Error.ofHeif r)) ∧
    (∀ r : heif_error, Encoder.set_lossy_quality r =
      if r.code = .heif_error_Ok then .ok () else .error (Error.ofHeif r)) ∧
    (∀ r : heif_error, Encoder.set_integer_parameter r =
      if r.code = .heif_error_Ok then .ok () else .error (Error.ofHeif r)) ∧
    (∀ r : heif_error, (Error.ofHeif r).m_code = r.code ∧
      (Error.ofHeif r).m_subcode = r.subcode ∧ (Error.ofHeif r).m_message = r.message) ∧
    (∀ e : Error, e.operatorBool = true ↔ e.m_code ≠ .heif_error_Ok) := by
  refine ⟨?_, ?_, ?_, ?_, ?_, ?_, fun r => ⟨rfl, rfl, rfl⟩, fun e => by
    simp [Error.operatorBool]⟩ <;>
  · intro r
    try intro x
    by_cases hr : r.code = .heif_error_Ok <;>
      simp [Context.read_from_file, Context.get_primary_image_ID, ImageHandle.decode_image,
        Image.create, Encoder.set_lossy_quality, Encoder.set_integer_parameter,
        Error.operatorBool, Error.ofHeif, hr]

/-- Claim C10: push_data and decode_image results depend only on the NalMap,
never on the strict_decoding flag: two instances with equal NalMap but
different flags produce identical observable results (error values and images)
and equal NalMap states under every sequence of push and decode calls, and
ffmpeg_set_strict_decoding only stores the flag, leaving the NalMap
unchanged. -/
theorem C10_strict_decoding_has_no_effect (cs : List DecoderCall) (d1 d2 : ffmpeg_decoder)
    (hmap : d1.NalMap = d2.NalMap) :
    (runCalls cs d1).1 = (runCalls cs d2).1 ∧
    (runCalls cs d1).2.NalMap = (runCalls cs d2).2.NalMap ∧
    (∀ (d : ffmpeg_decoder) (flag : Int),
      (ffmpeg_set_strict_decoding d flag).NalMap = d.NalMap) := by
  obtain ⟨m1, s1⟩ := d1
  obtain ⟨m2, s2⟩ := d2
  simp only at hmap
  subst hmap
  exact ⟨(runCalls_NalMap_parts cs m1 s1 s2).1, (runCalls_NalMap_parts cs m1 s1 s2).2,
    fun d flag => rfl⟩

/-- Witness for C10: a fresh decoder and a fresh decoder with strict decoding
switched on return the same results for a push followed by a decode, and end
with the same NalMap. -/
theorem C10_witness :
    (runCalls [.push_call [0, 0, 0, 1, 38], .decode_call backend_alloc_fail]
        ffmpeg_new_decoder).1 =
      (runCalls [.push_call [0, 0, 0, 1, 38], .decode_call backend_alloc_fail]
        (ffmpeg_set_strict_decoding ffmpeg_new_decoder 1)).1 ∧
    (runCalls [.push_call [0, 0, 0, 1, 38], .decode_call backend_alloc_fail]
        ffmpeg_new_decoder).2.NalMap =
      (runCalls [.push_call [0, 0, 0, 1, 38], .decode_call backend_alloc_fail]
        (ffmpeg_set_strict_decoding ffmpeg_new_decoder 1)).2.NalMap := by
  have h := C10_strict_decoding_has_no_effect
    [.push_call [0, 0, 0, 1, 38], .decode_call backend_alloc_fail]
    ffmpeg_new_decoder (ffmpeg_set_strict_decoding ffmpeg_new_decoder 1) rfl
  exact ⟨h.1, h.2.1⟩
